import Mathlib

/-!
Verification development for the picklepro-stats auto-matchmaking engine
(`src/services/autoMatchmaker.ts`).

The engine is shallowly embedded: JS numbers are modelled as real numbers
(`ℝ`), raw player input ratings as rationals (`ℚ`, JSON decimal literals),
JS `Map`s as association lists with insertion-order update semantics, JS
`Set`s as lists queried through `contains`, and arrays as lists.  Match
`date` strings are modelled by their parsed timestamps (`ℤ`, the value of
`new Date(s).getTime()`).  The unseeded `Math.random()` stream of the local
search is threaded explicitly as a list of drawn index pairs, so theorems
quantify over every possible random sequence.  Fallible entry points return
`Except`/`Option`.
-/

namespace PicklePro

/-- Input player record (`src/types.ts`).  Only the fields read by the
matchmaking engine are modelled; `name`, `avatar`, win/loss tallies and the
other display-only fields are never consulted by `autoMatchmaker.ts`. -/
structure Player where
  id : String
  tournamentRating : Option ℚ
  initialPoints : Option ℚ
deriving DecidableEq

/-- Input match record (`src/types.ts`).  `date` is the parsed timestamp of
the ISO date string; `id`, `type` and the score fields are not read by the
engine. `winner` is 1 or 2 in the TypeScript type. -/
structure Match where
  date : ℤ
  team1 : List String
  team2 : List String
  winner : ℕ
deriving DecidableEq

/-- Derived per-player state (`interface PlayerForm`). -/
structure PlayerForm where
  id : String
  baseRating : ℝ
  form : ℝ
  effectiveRating : ℝ

/-- Derived pair (`interface GeneratedPair`).  The TS field `structure` is a
Lean keyword and is rendered here as `struct`. -/
structure GeneratedPair where
  player1 : PlayerForm
  player2 : PlayerForm
  strength : ℝ
  struct : ℝ
  cost : ℝ

/-- Handicap block of a `GeneratedMatch`. -/
structure HandicapInfo where
  team : ℕ
  points : ℕ
  reason : String

/-- Analysis block of a `GeneratedMatch`. -/
structure AnalysisInfo where
  team2Synergy : ℝ
  team2Form : ℝ
  qualityScore : ℝ

/-- Output proposal (`interface GeneratedMatch`). -/
structure GeneratedMatch where
  team1 : GeneratedPair
  team2 : GeneratedPair
  matchCost : ℝ
  handicap : Option HandicapInfo
  analysis : AnalysisInfo

/-- Result of `runAutoMatchmaker`. -/
structure AutoMatchResult where
  players : List PlayerForm
  pairs : List GeneratedPair
  matchList : List GeneratedMatch  -- TS field `matches` (Lean keyword)

-- --- CONFIG CONSTANTS ---

def D_FACTOR : ℝ := 1.2

def K_FACTOR : ℝ := 0.18

def SUPPORT_CUTOFF : ℝ := 2.6

def TARGET_DIFF : ℝ := 1.4

-- --- JS Map / Set model ------------------------------------------------

/-- JS `Map.get`: first entry with the given key (keys are unique under
`mapSet`/`mapUpdate`). -/
def mapGet {α : Type} : List (String × α) → String → Option α
  | [], _ => none
  | e :: rest, k => if e.1 = k then some e.2 else mapGet rest k

/-- JS `Map.set`: overwrite in place, or append preserving insertion order. -/
def mapSet {α : Type} : List (String × α) → String → α → List (String × α)
  | [], k, v => [(k, v)]
  | e :: rest, k, v => if e.1 = k then (k, v) :: rest else e :: mapSet rest k v

/-- In-place mutation of the record stored at a key (no-op when absent),
modelling JS object mutation through a `Map.get` reference. -/
def mapUpdate {α : Type} : List (String × α) → String → (α → α) → List (String × α)
  | [], _, _ => []
  | e :: rest, k, f => if e.1 = k then (k, f e.2) :: rest else e :: mapUpdate rest k f

-- --- Stable sort (JS Array.prototype.sort) ------------------------------

/-- Insert `x` after every element `y` with `keep y x = true`, modelling a
stable comparator sort: `keep y x` holds when `y` may stay in front of `x`. -/
def insertBy {α : Type} (keep : α → α → Bool) (x : α) : List α → List α
  | [] => [x]
  | y :: ys => if keep y x then y :: insertBy keep x ys else x :: y :: ys

/-- Stable insertion sort: elements are taken left to right and inserted after
every already-placed element allowed to stay in front of them, reproducing the
element order of a stable comparator sort. -/
def sortBy {α : Type} (keep : α → α → Bool) (l : List α) : List α :=
  l.foldl (fun acc x => insertBy keep x acc) []

/-- Lexicographic string order (JS string comparison), computed on the
character lists so that it evaluates inside the kernel. -/
def strLe (a b : String) : Bool := !decide (b.data < a.data)

/-- Sorted-join key of two player ids: `[id1, id2].sort().join('-')`. -/
def getPairKey (id1 id2 : String) : String :=
  if strLe id1 id2 then id1 ++ "-" ++ id2 else id2 ++ "-" ++ id1

/-- Ascending lexicographic sort of a list of ids (`Array.sort()`). -/
def sortStrs (l : List String) : List String :=
  sortBy (fun y x => strLe y x) l

/-- Key `ids.sort().join('-')` — the 4-player repeat-match key. -/
def allIdsKey (ids : List String) : String :=
  String.intercalate "-" (sortStrs ids)

-- --- STEP 1: LEARN PLAYER FORM ------------------------------------------

/-- JS `Number(x.toFixed(2))`: round to 2 decimal places. -/
noncomputable def round2 (x : ℝ) : ℝ := (round (x * 100) : ℤ) / 100

/-- Raw rating `(p.tournamentRating || p.initialPoints || 0)`: JS `||` takes the first
operand that is neither `undefined` nor `0`. -/
def rawRating (p : Player) : ℚ :=
  match p.tournamentRating with
  | some t => if t = 0 then (match p.initialPoints with
      | some i => i
      | none => 0) else t
  | none => match p.initialPoints with
      | some i => i
      | none => 0

/-- Base rating `rawRating > 20 ? 3.0 : (rawRating || 3.0)`. -/
def baseRatingQ (p : Player) : ℚ :=
  if 20 < rawRating p then 3 else (if rawRating p = 0 then 3 else rawRating p)

/-- Fresh `PlayerForm` for one roster player: `form = 0`, `effectiveRating`
seeded with the base rating. -/
def initRec (p : Player) : PlayerForm :=
  { id := p.id
    baseRating := ((baseRatingQ p : ℚ) : ℝ)
    form := 0
    effectiveRating := ((baseRatingQ p : ℚ) : ℝ) }

/-- Initialization loop of `calculatePlayerForms`: one `PlayerForm` per roster
player. -/
def initForms (players : List Player) : List (String × PlayerForm) :=
  players.foldl (fun st p => mapSet st p.id (initRec p)) []

/-- One chronological learning step of `calculatePlayerForms`: skip any match
that is not two resolvable players a side, otherwise move `K * (actual -
expected1) / 2` of form onto each team-1 member and off each team-2 member. -/
noncomputable def applyFormMatch (st : List (String × PlayerForm)) (m : Match) :
    List (String × PlayerForm) :=
  match m.team1, m.team2 with
  | [a, b], [c, d] =>
    match mapGet st a, mapGet st b, mapGet st c, mapGet st d with
    | some t1p1, some t1p2, some t2p1, some t2p2 =>
      let effT1 := (t1p1.baseRating + t1p1.form) + (t1p2.baseRating + t1p2.form)
      let effT2 := (t2p1.baseRating + t2p1.form) + (t2p2.baseRating + t2p2.form)
      let expectedT1 := 1 / (1 + (10 : ℝ) ^ ((effT2 - effT1) / D_FACTOR))
      let actualS : ℝ := if m.winner = 1 then 1 else 0
      let delta := K_FACTOR * (actualS - expectedT1)
      let share := delta / 2
      mapUpdate
        (mapUpdate
          (mapUpdate
            (mapUpdate st a (fun p => { p with form := p.form + share }))
            b (fun p => { p with form := p.form + share }))
          c (fun p => { p with form := p.form - share }))
        d (fun p => { p with form := p.form - share })
    | _, _, _, _ => st
  | _, _ => st

/-- Finalization step: `p.effectiveRating = Number((base + form).toFixed(2))`. -/
noncomputable def finalizeForm (p : PlayerForm) : PlayerForm :=
  { p with effectiveRating := round2 (p.baseRating + p.form) }

/-- The Form Learner `calculatePlayerForms`: initialize, replay matches in chronological order,
then freeze `effectiveRating = round2(base + form)`. -/
noncomputable def calculatePlayerForms (players : List Player) (ms : List Match) :
    List (String × PlayerForm) :=
  let sortedMatches := sortBy (fun y x => decide (y.date ≤ x.date)) ms
  let st := sortedMatches.foldl applyFormMatch (initForms players)
  st.map (fun e => (e.1, finalizeForm e.2))

-- --- STEP 2: LEARN SYNERGY ----------------------------------------------

/-- Per-pair `(games, wins)` counter. -/
structure PairStat where
  games : ℕ
  wins : ℕ
deriving DecidableEq

/-- Ensure-then-increment of one pair counter (`pairStats` loop body). -/
def bumpPair (st : List (String × PairStat)) (k : String) (won : Bool) :
    List (String × PairStat) :=
  match mapGet st k with
  | none => mapSet st k { games := 1, wins := if won then 1 else 0 }
  | some s => mapSet st k { games := s.games + 1, wins := s.wins + (if won then 1 else 0) }

/-- Count one match into the pair-statistics map: each two-member team's key
is bumped, a win recorded when that team won.  No roster is consulted. -/
def tallyMatch (st : List (String × PairStat)) (m : Match) : List (String × PairStat) :=
  let st1 := match m.team1 with
    | [a, b] => bumpPair st (getPairKey a b) (m.winner == 1)
    | _ => st
  match m.team2 with
  | [c, d] => bumpPair st1 (getPairKey c d) (m.winner == 2)
  | _ => st1

/-- The `(games, wins)` accumulation phase of `calculateSynergyMatrix`. -/
def pairStats (ms : List Match) : List (String × PairStat) :=
  ms.foldl tallyMatch []

/-- Smoothed synergy value: `ln(p/(1-p)) * games/(games+6)` with
`p = (wins+2)/(games+4)` clamped to `[0.01, 0.99]`. -/
noncomputable def synFormula (games wins : ℕ) : ℝ :=
  let p : ℝ := ((wins : ℝ) + 2) / ((games : ℝ) + 4)
  let safeP := max 0.01 (min 0.99 p)
  Real.log (safeP / (1 - safeP)) * ((games : ℝ) / ((games : ℝ) + 6))

/-- Synergy value of one accumulated pair counter. -/
noncomputable def synergyOfStat (s : PairStat) : ℝ := synFormula s.games s.wins

/-- The Synergy Estimator `calculateSynergyMatrix`: the synergy formula applied to every observed
pair counter. -/
noncomputable def calculateSynergyMatrix (ms : List Match) : List (String × ℝ) :=
  (pairStats ms).map (fun e => (e.1, synergyOfStat e.2))

-- --- STEP 3: PAIRING COST FUNCTION --------------------------------------

/-- Lookup `synergyMatrix.get(pairKey) || 0` (an absent key contributes 0). -/
noncomputable def synOf (m : List (String × ℝ)) (k : String) : ℝ :=
  (mapGet m k).getD 0

/-- The Pairing Cost Function `getPairingCost`: quadratic deviation from the 1.4 target gap plus the
too-similar, broken-gap, double-support, synergy and recency penalties. -/
noncomputable def getPairingCost (p1 p2 : PlayerForm) (synergyMatrix : List (String × ℝ))
    (recentPairs : List String) : ℝ :=
  let diff := |p1.effectiveRating - p2.effectiveRating|
  let cost1 := 1.0 * (diff - TARGET_DIFF) ^ 2
  let cost2 := if diff < 0.6 then cost1 + 1.5 else cost1
  let cost3 := if 2.0 < diff then cost2 + 3.0 else cost2
  let cost4 :=
    if p1.effectiveRating < SUPPORT_CUTOFF ∧ p2.effectiveRating < SUPPORT_CUTOFF then
      cost3 + 10.0
    else cost3
  let pairKey := getPairKey p1.id p2.id
  let syn := synOf synergyMatrix pairKey
  let cost5 := if 0.35 < |syn| then cost4 + |syn| * 2.0 else cost4
  if recentPairs.contains pairKey then cost5 + 15.0 else cost5

-- --- STEP 4: PAIRING ALGORITHM ------------------------------------------

/-- Fallback records used only as `List.getD` defaults at indices that are
provably in range. -/
def defaultForm : PlayerForm := { id := "", baseRating := 0, form := 0, effectiveRating := 0 }

/-- Fallback pair for in-range `List.getD` indexing. -/
def defaultPair : GeneratedPair :=
  { player1 := defaultForm, player2 := defaultForm, strength := 0, struct := 0, cost := 0 }

/-- Inner scan of the greedy phase: the first partner of strictly minimal
`getPairingCost` among the remaining candidates, with its cost. -/
noncomputable def argminCost (p1 : PlayerForm) (synergyMatrix : List (String × ℝ))
    (recentPairs : List String) (cands : List PlayerForm) : Option (PlayerForm × ℝ) :=
  cands.foldl
    (fun acc p2 =>
      let c := getPairingCost p1 p2 synergyMatrix recentPairs
      match acc with
      | none => some (p2, c)
      | some b => if c < b.2 then some (p2, c) else acc)
    none

/-- Greedy seeding loop of `generateOptimalPairs`: walk the rating-ascending
pool, skip players already used, and commit each remaining player with its
cost-minimal partner among the later unused players. -/
noncomputable def greedyGo (synergyMatrix : List (String × ℝ)) (recentPairs : List String) :
    List PlayerForm → List String → List GeneratedPair
  | [], _ => []
  | p1 :: rest, used =>
    if used.contains p1.id then greedyGo synergyMatrix recentPairs rest used
    else
      match argminCost p1 synergyMatrix recentPairs
          (rest.filter (fun q => !(used.contains q.id))) with
      | none => greedyGo synergyMatrix recentPairs rest used
      | some best =>
        { player1 := p1
          player2 := best.1
          strength := p1.effectiveRating + best.1.effectiveRating
          struct := |p1.effectiveRating - best.1.effectiveRating|
          cost := best.2 } ::
          greedyGo synergyMatrix recentPairs rest (p1.id :: best.1.id :: used)

/-- Greedy phase of `generateOptimalPairs` (weakest players pick first). -/
noncomputable def greedyPairs (pool : List PlayerForm) (synergyMatrix : List (String × ℝ))
    (recentPairs : List String) : List GeneratedPair :=
  greedyGo synergyMatrix recentPairs
    (sortBy (fun y x => decide (y.effectiveRating ≤ x.effectiveRating)) pool) []

/-- Total recorded cost `pairs.reduce((sum, p) => sum + p.cost, 0)`. -/
def totalCost (pairs : List GeneratedPair) : ℝ :=
  pairs.foldl (fun s p => s + p.cost) 0

/-- One local-search iteration: draw two pair indices (the second re-drawn
until distinct, modelled by bumping a colliding draw to the next index),
evaluate the second-member cross swap, and apply it only when it strictly
lowers the tracked total cost.  The state carries `(pairs, currentTotalCost)`. -/
noncomputable def swapStep (synergyMatrix : List (String × ℝ)) (recentPairs : List String)
    (s : List GeneratedPair × ℝ) (ij : ℕ × ℕ) : List GeneratedPair × ℝ :=
  if s.1.length < 2 then s
  else
    let n := s.1.length
    let idx1 := ij.1 % n
    let j := ij.2 % n
    let idx2 := if j = idx1 then (j + 1) % n else j
    let pairA := s.1.getD idx1 defaultPair
    let pairB := s.1.getD idx2 defaultPair
    let costSwap1 := getPairingCost pairA.player1 pairB.player2 synergyMatrix recentPairs
    let costSwap2 := getPairingCost pairB.player1 pairA.player2 synergyMatrix recentPairs
    let newTotalCost := s.2 - pairA.cost - pairB.cost + costSwap1 + costSwap2
    if newTotalCost < s.2 then
      let newPairA : GeneratedPair :=
        { player1 := pairA.player1
          player2 := pairB.player2
          strength := pairA.player1.effectiveRating + pairB.player2.effectiveRating
          struct := |pairA.player1.effectiveRating - pairB.player2.effectiveRating|
          cost := costSwap1 }
      let newPairB : GeneratedPair :=
        { player1 := pairB.player1
          player2 := pairA.player2
          strength := pairB.player1.effectiveRating + pairA.player2.effectiveRating
          struct := |pairB.player1.effectiveRating - pairA.player2.effectiveRating|
          cost := costSwap2 }
      ((s.1.set idx1 newPairA).set idx2 newPairB, newTotalCost)
    else s

/-- The Pair Optimizer `generateOptimalPairs`: greedy seeding followed by (up to) 200 random
local-search swap iterations driven by the supplied random index stream. -/
noncomputable def generateOptimalPairs (pool : List PlayerForm)
    (synergyMatrix : List (String × ℝ)) (recentPairs : List String)
    (rand : List (ℕ × ℕ)) : List GeneratedPair :=
  let pairs := greedyPairs pool synergyMatrix recentPairs
  ((rand.take 200).foldl (swapStep synergyMatrix recentPairs) (pairs, totalCost pairs)).1

-- --- STEP 5/6: MATCHMAKING & HANDICAP -----------------------------------

/-- Step function of the handicap rule (`points` if-chain, identical at all
three call sites). -/
noncomputable def basePoints (diff : ℝ) : ℕ :=
  if 0.3 < diff ∧ diff ≤ 0.6 then 1
  else if 0.6 < diff ∧ diff ≤ 0.9 then 2
  else if 0.9 < diff ∧ diff ≤ 1.2 then 3
  else if 1.2 < diff then 4
  else 0

/-- Support bonus of `generateMatchups` and `findTopMatchupsForTeam`: one
extra point when points are positive and the weaker pair fields a player
below the support cutoff. -/
noncomputable def supportAdjust (points : ℕ) (weakPair : GeneratedPair) : ℕ :=
  if 0 < points ∧ (weakPair.player1.effectiveRating < SUPPORT_CUTOFF ∨
      weakPair.player2.effectiveRating < SUPPORT_CUTOFF) then
    points + 1
  else points

/-- Digits of `diff.toFixed(2)` (the value rounded to cents; the exact JS
decimal rendering is not modelled — reason strings are never reasoned about). -/
noncomputable def fmtFixed2 (x : ℝ) : String := toString (round (x * 100) : ℤ)

/-- Shared proposal constructor: every call site computes `points` from the
step function, optionally adds one support point under its own condition `C`,
and attaches a handicap record exactly when the points are positive. -/
noncomputable def mkProposal (X Y : GeneratedPair) (mc : ℝ) (an : AnalysisInfo)
    (wt : ℕ) (r : String) (C : Prop) [Decidable C] : GeneratedMatch :=
  let base := basePoints |X.strength - Y.strength|
  let pts := if 0 < base ∧ C then base + 1 else base
  { team1 := X
    team2 := Y
    matchCost := mc
    handicap := if 0 < pts then some { team := wt, points := pts, reason := r } else none
    analysis := an }

/-- Proposal emitted by the Match Scheduler for teams `t1`, `t2` at match
cost `c` (handicap block of `generateMatchups`). -/
noncomputable def schedProposal (t1 t2 : GeneratedPair) (c : ℝ) : GeneratedMatch :=
  let diff := |t1.strength - t2.strength|
  let weakerTeam : ℕ := if t1.strength < t2.strength then 1 else 2
  let weakPair := if weakerTeam = 1 then t1 else t2
  mkProposal t1 t2 c
    { team2Synergy := 0, team2Form := 0, qualityScore := max 0 (100 - c) }
    weakerTeam ("Chênh lệch sức mạnh " ++ fmtFixed2 diff)
    (weakPair.player1.effectiveRating < SUPPORT_CUTOFF ∨
      weakPair.player2.effectiveRating < SUPPORT_CUTOFF)

/-- Match-scheduler cost of pairing `t1` against `t2`. -/
noncomputable def matchCostOf (t1 t2 : GeneratedPair) (recentMatches : List String) : ℝ :=
  let cost := 1.0 * (t1.strength - t2.strength) ^ 2 + 0.7 * (t1.struct - t2.struct) ^ 2
  let allIds := allIdsKey [t1.player1.id, t1.player2.id, t2.player1.id, t2.player2.id]
  if recentMatches.contains allIds then cost + 50.0 else cost

/-- Opponent scan of the Match Scheduler: index, team and cost of the first
opponent of strictly minimal cost. -/
noncomputable def pickOpponent (t1 : GeneratedPair) (recentMatches : List String)
    (pool : List GeneratedPair) : Option (ℕ × GeneratedPair × ℝ) :=
  (pool.foldl
    (fun (acc : ℕ × Option (ℕ × GeneratedPair × ℝ)) t2 =>
      let c := matchCostOf t1 t2 recentMatches
      match acc.2 with
      | none => (acc.1 + 1, some (acc.1, t2, c))
      | some b => if c < b.2.2 then (acc.1 + 1, some (acc.1, t2, c)) else (acc.1 + 1, acc.2))
    (0, none)).2

/-- Scheduling loop of `generateMatchups`: repeatedly take the strongest
remaining team, remove its cost-minimal opponent, and emit the proposal. -/
noncomputable def genGo (recentMatches : List String) :
    List GeneratedPair → List GeneratedMatch
  | [] => []
  | [_] => []
  | t1 :: rest =>
    match pickOpponent t1 recentMatches rest with
    | some b => schedProposal t1 b.2.1 b.2.2 :: genGo recentMatches (rest.eraseIdx b.1)
    | none => genGo recentMatches rest
termination_by l => l.length
decreasing_by
  · have := List.length_eraseIdx_le rest b.1
    simp only [List.length_cons]
    omega
  · simp only [List.length_cons]
    omega

/-- The Match Scheduler `generateMatchups`: sort teams by strength descending and schedule. -/
noncomputable def generateMatchups (teams : List GeneratedPair)
    (recentMatches : List String) : List GeneratedMatch :=
  genGo recentMatches (sortBy (fun y x => decide (x.strength ≤ y.strength)) teams)

-- --- FIND TOP MATCHUPS FOR FIXED TEAM -----------------------------------

/-- All index-ordered candidate opponent pairs (`i < j` double loop). -/
def orderedPairs {α : Type} : List α → List (α × α)
  | [] => []
  | x :: xs => xs.map (fun y => (x, y)) ++ orderedPairs xs

/-- Candidate opponent pair built by `findTopMatchupsForTeam` (internal
pairing cost computed against an empty recent-pairs set). -/
noncomputable def mkCandidate (synergyMatrix : List (String × ℝ))
    (o : PlayerForm × PlayerForm) : GeneratedPair :=
  { player1 := o.1
    player2 := o.2
    strength := o.1.effectiveRating + o.2.effectiveRating
    struct := |o.1.effectiveRating - o.2.effectiveRating|
    cost := getPairingCost o.1 o.2 synergyMatrix [] }

/-- Recent-match keys harvested from the latest `n` matches (descending date). -/
def recentMatchKeys (ms : List Match) : List String :=
  ms.foldl
    (fun acc m =>
      match m.team1, m.team2 with
      | [a, b], [c, d] => acc ++ [allIdsKey [a, b, c, d]]
      | _, _ => acc)
    []

/-- Ranked proposal of `findTopMatchupsForTeam` for one candidate pair. -/
noncomputable def rankOne (fixedTeam : GeneratedPair) (synergyMatrix : List (String × ℝ))
    (recentMatches : List String) (candidate : GeneratedPair) : GeneratedMatch :=
  let mc :=
    1.0 * (fixedTeam.strength - candidate.strength) ^ 2 +
      0.7 * (fixedTeam.struct - candidate.struct) ^ 2 + candidate.cost * 0.5
  let allIds := allIdsKey [fixedTeam.player1.id, fixedTeam.player2.id,
    candidate.player1.id, candidate.player2.id]
  let matchCost := if recentMatches.contains allIds then mc + 50.0 else mc
  let diff := |fixedTeam.strength - candidate.strength|
  let weakerTeam : ℕ := if fixedTeam.strength < candidate.strength then 1 else 2
  let weakPair := if weakerTeam = 1 then fixedTeam else candidate
  let pairKey := getPairKey candidate.player1.id candidate.player2.id
  mkProposal fixedTeam candidate matchCost
    { team2Synergy := synOf synergyMatrix pairKey
      team2Form := candidate.player1.form + candidate.player2.form
      qualityScore := max 0 (100 - matchCost) }
    weakerTeam ("Chênh lệch " ++ fmtFixed2 diff)
    (weakPair.player1.effectiveRating < SUPPORT_CUTOFF ∨
      weakPair.player2.effectiveRating < SUPPORT_CUTOFF)

/-- Handicap points used by the final sort (`a.handicap ? a.handicap.points : 0`). -/
def handicapPts (gm : GeneratedMatch) : ℕ :=
  match gm.handicap with
  | some h => h.points
  | none => 0

/-- Final comparator of `findTopMatchupsForTeam`: zero-handicap proposals
first, then ascending handicap points, then ascending match cost. -/
noncomputable def cmpRank (a b : GeneratedMatch) : ℝ :=
  if handicapPts a = 0 ∧ 0 < handicapPts b then -1
  else if 0 < handicapPts a ∧ handicapPts b = 0 then 1
  else if handicapPts a ≠ handicapPts b then (handicapPts a : ℝ) - (handicapPts b : ℝ)
  else a.matchCost - b.matchCost

/-- The fixed-team query `findTopMatchupsForTeam`: score every candidate opponent pair from the
pool against the fixed team and return the 10 best-ranked proposals. -/
noncomputable def findTopMatchupsForTeam (fixedTeamIds : String × String)
    (poolIds : List String) (allPlayers : List Player) (allMatches : List Match) :
    List GeneratedMatch :=
  let playerForms := calculatePlayerForms allPlayers allMatches
  let synergyMatrix := calculateSynergyMatrix allMatches
  match mapGet playerForms fixedTeamIds.1, mapGet playerForms fixedTeamIds.2 with
  | some p1, some p2 =>
    let fixedTeam : GeneratedPair :=
      { player1 := p1
        player2 := p2
        strength := p1.effectiveRating + p2.effectiveRating
        struct := |p1.effectiveRating - p2.effectiveRating|
        cost := 0 }
    let pool := poolIds.filterMap (fun id => mapGet playerForms id)
    let candidatePairs := (orderedPairs pool).map (mkCandidate synergyMatrix)
    let recentMatches :=
      recentMatchKeys ((sortBy (fun y x => decide (x.date ≤ y.date)) allMatches).take 50)
    let rankedMatchups := candidatePairs.map (rankOne fixedTeam synergyMatrix recentMatches)
    (sortBy (fun y x => decide (cmpRank y x ≤ 0)) rankedMatchups).take 10
  | _, _ => []

-- --- PREDICT MATCH OUTCOME ----------------------------------------------

/-- Second team member of a predictor team:
`ids.length > 1 ? playerForms.get(String(ids[1])) : null` (an unresolvable
second id also yields `null`-like absence, exactly as in the source). -/
noncomputable def resolve2 (playerForms : List (String × PlayerForm))
    (ids : List String) : Option PlayerForm :=
  if 1 < ids.length then mapGet playerForms (ids.getD 1 "") else none

/-- The predictor `predictMatchOutcome`: build both teams (a missing second member leaves
the first player duplicated in the `player2` slot and contributes 0 strength),
then compute the handicap; the support check tests `team1Ids.length > 1`
for whichever pair turned out weaker. -/
noncomputable def predictMatchOutcome (team1Ids team2Ids : List String)
    (allPlayers : List Player) (allMatches : List Match) : Option GeneratedMatch :=
  if team1Ids.length = 0 ∨ team2Ids.length = 0 then none
  else
    let playerForms := calculatePlayerForms allPlayers allMatches
    match mapGet playerForms (team1Ids.getD 0 "") with
    | none => none
    | some t1p1 =>
      let t1p2 := resolve2 playerForms team1Ids
      let t1Rating := t1p1.effectiveRating + (t1p2.elim 0 (fun q => q.effectiveRating))
      let t1Structure := t1p2.elim 0 (fun q => |t1p1.effectiveRating - q.effectiveRating|)
      let team1Pair : GeneratedPair :=
        { player1 := t1p1, player2 := t1p2.getD t1p1, strength := t1Rating,
          struct := t1Structure, cost := 0 }
      match mapGet playerForms (team2Ids.getD 0 "") with
      | none => none
      | some t2p1 =>
        let t2p2 := resolve2 playerForms team2Ids
        let t2Rating := t2p1.effectiveRating + (t2p2.elim 0 (fun q => q.effectiveRating))
        let t2Structure := t2p2.elim 0 (fun q => |t2p1.effectiveRating - q.effectiveRating|)
        let team2Pair : GeneratedPair :=
          { player1 := t2p1, player2 := t2p2.getD t2p1, strength := t2Rating,
            struct := t2Structure, cost := 0 }
        let diff := |team1Pair.strength - team2Pair.strength|
        let weakerTeam : ℕ := if team1Pair.strength < team2Pair.strength then 1 else 2
        let weakPair := if weakerTeam = 1 then team1Pair else team2Pair
        some (mkProposal team1Pair team2Pair 0
          { team2Synergy := 0, team2Form := 0, qualityScore := max 0 (100 - diff * 50) }
          weakerTeam ("Chênh lệch trình độ " ++ fmtFixed2 diff)
          (weakPair.player1.effectiveRating < SUPPORT_CUTOFF ∨
            (1 < team1Ids.length ∧ weakPair.player2.effectiveRating < SUPPORT_CUTOFF)))

-- --- MAIN EXPORT FUNCTION -----------------------------------------------

/-- Recent-pair keys harvested from the latest matches. -/
def recentPairKeys (ms : List Match) : List String :=
  ms.foldl
    (fun acc m =>
      let acc1 := match m.team1 with
        | [a, b] => acc ++ [getPairKey a b]
        | _ => acc
      match m.team2 with
      | [c, d] => acc1 ++ [getPairKey c d]
      | _ => acc1)
    []

/-- Body of `runAutoMatchmaker` past the validation: learn form and synergy,
build the selected pool, collect the last-20-match recency context, pair and
schedule. -/
noncomputable def runResult (selectedPlayerIds : List String) (allPlayers : List Player)
    (allMatches : List Match) (rand : List (ℕ × ℕ)) : AutoMatchResult :=
  let selectedPlayers := allPlayers.filter (fun p => selectedPlayerIds.contains p.id)
  let playerForms := calculatePlayerForms allPlayers allMatches
  let synergyMatrix := calculateSynergyMatrix allMatches
  let pool := selectedPlayers.filterMap (fun p => mapGet playerForms p.id)
  let sortedMatches := (sortBy (fun y x => decide (x.date ≤ y.date)) allMatches).take 20
  let recentPairs := recentPairKeys sortedMatches
  let recentMatches := recentMatchKeys sortedMatches
  let pairs := generateOptimalPairs pool synergyMatrix recentPairs rand
  let matchesResult := generateMatchups pairs recentMatches
  { players := pool, pairs := pairs, matchList := matchesResult }

/-- The main entry `runAutoMatchmaker`: filter the roster by the selected ids, reject an odd
selected-player count with a (Vietnamese) human-readable error before any
further computation, otherwise learn, pair and schedule. -/
noncomputable def runAutoMatchmaker (selectedPlayerIds : List String)
    (allPlayers : List Player) (allMatches : List Match) (rand : List (ℕ × ℕ)) :
    Except String AutoMatchResult :=
  let selectedPlayers := allPlayers.filter (fun p => selectedPlayerIds.contains p.id)
  if selectedPlayers.length % 2 ≠ 0 then
    Except.error "Số lượng người chơi phải là số chẵn."
  else
    Except.ok (runResult selectedPlayerIds allPlayers allMatches rand)

-- ========================================================================
-- Helper lemmas
-- ========================================================================

theorem mapGet_mapSet_self {α : Type} (m : List (String × α)) (k : String) (v : α) :
    mapGet (mapSet m k v) k = some v := by
  induction m with
  | nil => simp [mapSet, mapGet]
  | cons e rest ih =>
    by_cases h : e.1 = k
    · simp [mapSet, mapGet, h]
    · simp [mapSet, mapGet, h, ih]

theorem mapGet_mapSet_ne {α : Type} (m : List (String × α)) (k k' : String) (v : α)
    (h : k' ≠ k) : mapGet (mapSet m k v) k' = mapGet m k' := by
  have hk : ¬ (k = k') := fun hh => h hh.symm
  induction m with
  | nil => simp [mapSet, mapGet, hk]
  | cons e rest ih =>
    by_cases he : e.1 = k
    · simp [mapSet, mapGet, he, hk]
    · simp [mapSet, mapGet, he, ih]

theorem mapGet_mapUpdate_self {α : Type} (m : List (String × α)) (k : String) (f : α → α) :
    mapGet (mapUpdate m k f) k = (mapGet m k).map f := by
  induction m with
  | nil => simp [mapUpdate, mapGet]
  | cons e rest ih =>
    by_cases h : e.1 = k
    · simp [mapUpdate, mapGet, h]
    · simp [mapUpdate, mapGet, h, ih]

theorem mapGet_mapUpdate_ne {α : Type} (m : List (String × α)) (k k' : String)
    (f : α → α) (h : k' ≠ k) : mapGet (mapUpdate m k f) k' = mapGet m k' := by
  have hk : ¬ (k = k') := fun hh => h hh.symm
  induction m with
  | nil => simp [mapUpdate, mapGet]
  | cons e rest ih =>
    by_cases he : e.1 = k
    · simp [mapUpdate, mapGet, he, hk]
    · simp [mapUpdate, mapGet, he, ih]

theorem mapGet_map_value {α β : Type} (m : List (String × α)) (f : α → β) (k : String) :
    mapGet (m.map (fun e => (e.1, f e.2))) k = (mapGet m k).map f := by
  induction m with
  | nil => simp [mapGet]
  | cons e rest ih =>
    by_cases h : e.1 = k
    · simp [mapGet, h]
    · simp [mapGet, h, ih]

theorem mapGet_mem {α : Type} {m : List (String × α)} {k : String} {v : α}
    (h : mapGet m k = some v) : (k, v) ∈ m := by
  induction m with
  | nil => simp [mapGet] at h
  | cons e rest ih =>
    obtain ⟨a, b⟩ := e
    by_cases he : a = k
    · simp [mapGet, he] at h
      subst he
      subst h
      exact List.mem_cons_self _ _
    · simp [mapGet, he] at h
      exact List.mem_cons_of_mem _ (ih h)

theorem insertBy_perm {α : Type} (keep : α → α → Bool) (x : α) (l : List α) :
    (insertBy keep x l).Perm (x :: l) := by
  induction l with
  | nil => simp [insertBy]
  | cons y ys ih =>
    by_cases h : keep y x
    · simp only [insertBy, h, if_true]
      exact (ih.cons y).trans (List.Perm.swap x y ys)
    · simp [insertBy, h]

theorem sortBy_foldl_perm {α : Type} (keep : α → α → Bool) (l acc : List α) :
    (l.foldl (fun a x => insertBy keep x a) acc).Perm (acc ++ l) := by
  induction l generalizing acc with
  | nil => simp
  | cons x xs ih =>
    have h1 := ih (insertBy keep x acc)
    have h2 : (insertBy keep x acc ++ xs).Perm ((x :: acc) ++ xs) :=
      (insertBy_perm keep x acc).append_right xs
    have h3 : ((x :: acc) ++ xs).Perm (acc ++ x :: xs) := List.perm_middle.symm
    simp only [List.foldl_cons]
    exact (h1.trans h2).trans h3

theorem sortBy_perm {α : Type} (keep : α → α → Bool) (l : List α) :
    (sortBy keep l).Perm l := by
  simpa using sortBy_foldl_perm keep l []

theorem mem_sortBy {α : Type} {keep : α → α → Bool} {l : List α} {a : α} :
    a ∈ sortBy keep l ↔ a ∈ l :=
  (sortBy_perm keep l).mem_iff

theorem round2_intCast (n : ℤ) : round2 ((n : ℤ) : ℝ) = ((n : ℤ) : ℝ) := by
  unfold round2
  have h : ((n : ℤ) : ℝ) * 100 = (((n * 100 : ℤ)) : ℝ) := by push_cast; ring
  rw [h, round_intCast]
  push_cast
  ring

-- Id/domain preservation through the Form Learner -----------------------

/-- State `st'` keeps every resolvable key of `st` resolvable, preserving the
stored `id` field. -/
def IdPres (st st' : List (String × PlayerForm)) : Prop :=
  ∀ k v, mapGet st k = some v → ∃ v', mapGet st' k = some v' ∧ v'.id = v.id

theorem idPres_refl (st : List (String × PlayerForm)) : IdPres st st :=
  fun _ v h => ⟨v, h, rfl⟩

theorem idPres_trans {s1 s2 s3 : List (String × PlayerForm)}
    (h12 : IdPres s1 s2) (h23 : IdPres s2 s3) : IdPres s1 s3 := by
  intro k v h
  obtain ⟨v2, hv2, hid2⟩ := h12 k v h
  obtain ⟨v3, hv3, hid3⟩ := h23 k v2 hv2
  exact ⟨v3, hv3, hid3.trans hid2⟩

theorem idPres_mapUpdate (st : List (String × PlayerForm)) (k0 : String)
    (f : PlayerForm → PlayerForm) (hf : ∀ x, (f x).id = x.id) :
    IdPres st (mapUpdate st k0 f) := by
  intro k v h
  by_cases hk : k = k0
  · subst hk
    refine ⟨f v, ?_, hf v⟩
    rw [mapGet_mapUpdate_self, h]
    rfl
  · exact ⟨v, by rw [mapGet_mapUpdate_ne _ _ _ _ hk, h], rfl⟩

theorem idPres_applyFormMatch (st : List (String × PlayerForm)) (m : Match) :
    IdPres st (applyFormMatch st m) := by
  unfold applyFormMatch
  split
  case h_2 => exact idPres_refl st
  case h_1 a b c d h1 h2 =>
    split
    case h_2 => exact idPres_refl st
    case h_1 pa pb pc pd ha hb hc hd =>
      refine idPres_trans (idPres_mapUpdate _ _ _ ?_)
        (idPres_trans (idPres_mapUpdate _ _ _ ?_)
          (idPres_trans (idPres_mapUpdate _ _ _ ?_) (idPres_mapUpdate _ _ _ ?_))) <;>
        intro x <;> rfl

theorem idPres_foldl (ms : List Match) (st : List (String × PlayerForm)) :
    IdPres st (ms.foldl applyFormMatch st) := by
  induction ms generalizing st with
  | nil => exact idPres_refl st
  | cons m rest ih =>
    exact idPres_trans (idPres_applyFormMatch st m) (by simpa using ih (applyFormMatch st m))

theorem mem_mapSet {α : Type} {m : List (String × α)} {k : String} {v : α}
    {e : String × α} : e ∈ mapSet m k v → e ∈ m ∨ e = (k, v) := by
  induction m with
  | nil =>
    intro h
    simp [mapSet] at h
    exact Or.inr (by simp [h])
  | cons f rest ih =>
    intro h
    by_cases hf : f.1 = k
    · simp only [mapSet, hf, if_true] at h
      rcases List.mem_cons.mp h with h2 | h2
      · exact Or.inr h2
      · exact Or.inl (List.mem_cons_of_mem _ h2)
    · simp only [mapSet, hf, if_false] at h
      rcases List.mem_cons.mp h with h2 | h2
      · exact Or.inl (by simp [h2])
      · rcases ih h2 with h3 | h3
        · exact Or.inl (List.mem_cons_of_mem _ h3)
        · exact Or.inr h3

/-- Every entry of the map stores a record whose `id` equals its key. -/
def KeysOwn (m : List (String × PlayerForm)) : Prop :=
  ∀ e ∈ m, (e : String × PlayerForm).2.id = e.1

theorem mapGet_id_of_keysOwn {m : List (String × PlayerForm)} {k : String}
    {v : PlayerForm} (hm : KeysOwn m) (h : mapGet m k = some v) : v.id = k :=
  hm (k, v) (mapGet_mem h)

theorem keysOwn_initForms (players : List Player) : KeysOwn (initForms players) := by
  have main : ∀ (l : List Player) (acc : List (String × PlayerForm)), KeysOwn acc →
      KeysOwn (l.foldl (fun st q => mapSet st q.id (initRec q)) acc) := by
    intro l
    induction l with
    | nil => intro acc hacc; simpa using hacc
    | cons q rest ih =>
      intro acc hacc
      simp only [List.foldl_cons]
      apply ih
      intro e he
      rcases mem_mapSet he with h2 | h2
      · exact hacc e h2
      · simp [h2, initRec]
  exact main players [] (by intro e he; simp at he)

theorem mapGet_mapSet_isSome {α : Type} (m : List (String × α)) (k k' : String) (v : α)
    (h : (mapGet m k').isSome) : (mapGet (mapSet m k v) k').isSome := by
  by_cases hk : k' = k
  · subst hk; simp [mapGet_mapSet_self]
  · rwa [mapGet_mapSet_ne _ _ _ _ hk]

theorem initForms_isSome (players : List Player) (p : Player) (hp : p ∈ players) :
    (mapGet (initForms players) p.id).isSome := by
  have main : ∀ (l : List Player) (acc : List (String × PlayerForm)),
      (p ∈ l ∨ (mapGet acc p.id).isSome) →
      (mapGet (l.foldl (fun st q => mapSet st q.id (initRec q)) acc) p.id).isSome := by
    intro l
    induction l with
    | nil =>
      intro acc h
      rcases h with h | h
      · simp at h
      · simpa using h
    | cons q rest ih =>
      intro acc h
      simp only [List.foldl_cons]
      apply ih
      rcases h with h | h
      · rcases List.mem_cons.mp h with h2 | h2
        · subst h2
          exact Or.inr (by simp [mapGet_mapSet_self])
        · exact Or.inl h2
      · exact Or.inr (mapGet_mapSet_isSome _ _ _ _ h)
  exact main players [] (Or.inl hp)

theorem calcForms_resolves (players : List Player) (ms : List Match) (p : Player)
    (hp : p ∈ players) :
    ∃ pf, mapGet (calculatePlayerForms players ms) p.id = some pf ∧ pf.id = p.id := by
  obtain ⟨pf0, h0⟩ := Option.isSome_iff_exists.mp (initForms_isSome players p hp)
  have hid0 : pf0.id = p.id := mapGet_id_of_keysOwn (keysOwn_initForms players) h0
  obtain ⟨pf1, h1, hid1⟩ :=
    idPres_foldl (sortBy (fun y x => decide (y.date ≤ x.date)) ms) (initForms players)
      p.id pf0 h0
  refine ⟨finalizeForm pf1, ?_, ?_⟩
  · unfold calculatePlayerForms
    rw [mapGet_map_value, h1]
    rfl
  · simpa [finalizeForm] using hid1.trans hid0

-- ========================================================================
-- Claim theorems
-- ========================================================================

/-- C2: for every match applied during chronological replay with two distinct
roster-resolvable players a side, each team-1 member's form moves by exactly
`K * (actual - expected1) / 2` with `K = 0.18` and
`expected1 = 1 / (1 + 10 ^ ((effTeam2 - effTeam1) / 1.2))` on the current
effective team ratings, each team-2 member's form moves by the negation, and
the per-match form deltas are zero-sum between the teams. -/
theorem form_learner_step_zero_sum (st : List (String × PlayerForm)) (m : Match)
    (a b c d : String) (pa pb pc pd : PlayerForm)
    (h1 : m.team1 = [a, b]) (h2 : m.team2 = [c, d])
    (ha : mapGet st a = some pa) (hb : mapGet st b = some pb)
    (hc : mapGet st c = some pc) (hd : mapGet st d = some pd)
    (hab : a ≠ b) (hac : a ≠ c) (had : a ≠ d)
    (hbc : b ≠ c) (hbd : b ≠ d) (hcd : c ≠ d) :
    ∃ share : ℝ,
      share = 0.18 * ((if m.winner = 1 then (1 : ℝ) else 0) -
        1 / (1 + (10 : ℝ) ^ ((((pc.baseRating + pc.form) + (pd.baseRating + pd.form)) -
          ((pa.baseRating + pa.form) + (pb.baseRating + pb.form))) / 1.2))) / 2 ∧
      mapGet (applyFormMatch st m) a = some { pa with form := pa.form + share } ∧
      mapGet (applyFormMatch st m) b = some { pb with form := pb.form + share } ∧
      mapGet (applyFormMatch st m) c = some { pc with form := pc.form - share } ∧
      mapGet (applyFormMatch st m) d = some { pd with form := pd.form - share } ∧
      ((pa.form + share) - pa.form) + ((pb.form + share) - pb.form) =
        -(((pc.form - share) - pc.form) + ((pd.form - share) - pd.form)) := by
  have hba : b ≠ a := Ne.symm hab
  have hca : c ≠ a := Ne.symm hac
  have hcb : c ≠ b := Ne.symm hbc
  have hda : d ≠ a := Ne.symm had
  have hdb : d ≠ b := Ne.symm hbd
  have hdc : d ≠ c := Ne.symm hcd
  refine ⟨_, rfl, ?_, ?_, ?_, ?_, by ring⟩ <;>
    simp only [applyFormMatch, h1, h2, ha, hb, hc, hd]
  · rw [mapGet_mapUpdate_ne _ _ _ _ had, mapGet_mapUpdate_ne _ _ _ _ hac,
      mapGet_mapUpdate_ne _ _ _ _ hab, mapGet_mapUpdate_self, ha]
    simp [K_FACTOR, D_FACTOR]
  · rw [mapGet_mapUpdate_ne _ _ _ _ hbd, mapGet_mapUpdate_ne _ _ _ _ hbc,
      mapGet_mapUpdate_self, mapGet_mapUpdate_ne _ _ _ _ hba, hb]
    simp [K_FACTOR, D_FACTOR]
  · rw [mapGet_mapUpdate_ne _ _ _ _ hcd, mapGet_mapUpdate_self,
      mapGet_mapUpdate_ne _ _ _ _ hcb, mapGet_mapUpdate_ne _ _ _ _ hca, hc]
    simp [K_FACTOR, D_FACTOR]
  · rw [mapGet_mapUpdate_self, mapGet_mapUpdate_ne _ _ _ _ hdc,
      mapGet_mapUpdate_ne _ _ _ _ hdb, mapGet_mapUpdate_ne _ _ _ _ hda, hd]
    simp [K_FACTOR, D_FACTOR]

/-- Concrete four-player form state used to witness the replay-step theorem. -/
def wForm (i : String) : PlayerForm :=
  { id := i, baseRating := 3, form := 0, effectiveRating := 3 }

/-- Concrete form map for the witness. -/
def wSt : List (String × PlayerForm) :=
  [("a", wForm "a"), ("b", wForm "b"), ("c", wForm "c"), ("d", wForm "d")]

/-- Concrete two-a-side match (team 1 wins) used by several witnesses. -/
def wMatch : Match := { date := 0, team1 := ["a", "b"], team2 := ["c", "d"], winner := 1 }

/-- Witness for C2 at a concrete state and match. -/
theorem form_learner_step_zero_sum_witness :
    ∃ pf, mapGet (applyFormMatch wSt wMatch) "a" = some pf := by
  obtain ⟨share, _, hA, _⟩ := form_learner_step_zero_sum wSt wMatch "a" "b" "c" "d"
    (wForm "a") (wForm "b") (wForm "c") (wForm "d") rfl rfl rfl rfl rfl rfl
    (by decide) (by decide) (by decide) (by decide) (by decide) (by decide)
  exact ⟨_, hA⟩

/-- C3: `runAutoMatchmaker` reports the human-readable odd-count error, with
no matchmaking computed, exactly when the selected player count (the players
of the roster matching the selected ids) is odd; an even selected count
returns the full players/pairs/matches result. -/
theorem runAutoMatchmaker_odd_count_error (selectedPlayerIds : List String)
    (allPlayers : List Player) (allMatches : List Match) (rand : List (ℕ × ℕ)) :
    ((∃ e, runAutoMatchmaker selectedPlayerIds allPlayers allMatches rand =
        Except.error e) ↔
      (allPlayers.filter (fun p => selectedPlayerIds.contains p.id)).length % 2 = 1) ∧
    (runAutoMatchmaker selectedPlayerIds allPlayers allMatches rand =
        Except.error "Số lượng người chơi phải là số chẵn." ↔
      (allPlayers.filter (fun p => selectedPlayerIds.contains p.id)).length % 2 = 1) ∧
    ((allPlayers.filter (fun p => selectedPlayerIds.contains p.id)).length % 2 = 0 →
      ∃ r, runAutoMatchmaker selectedPlayerIds allPlayers allMatches rand =
        Except.ok r) := by
  have heq : runAutoMatchmaker selectedPlayerIds allPlayers allMatches rand =
      if (allPlayers.filter (fun p => selectedPlayerIds.contains p.id)).length % 2 ≠ 0
      then Except.error "Số lượng người chơi phải là số chẵn."
      else Except.ok (runResult selectedPlayerIds allPlayers allMatches rand) := rfl
  by_cases h : (allPlayers.filter (fun p => selectedPlayerIds.contains p.id)).length % 2 = 0
  · rw [heq, if_neg (by omega)]
    refine ⟨?_, ?_, fun _ => ⟨_, rfl⟩⟩
    · constructor
      · rintro ⟨e, he⟩
        exact Except.noConfusion he
      · intro h1
        omega
    · constructor
      · intro he
        exact Except.noConfusion he
      · intro h1
        omega
  · rw [heq, if_pos (by omega)]
    refine ⟨?_, ?_, fun h0 => absurd h0 h⟩
    · constructor
      · intro _
        omega
      · intro _
        exact ⟨_, rfl⟩
    · constructor
      · intro _
        omega
      · intro _
        rfl

/-- Witness for C3 at a concrete even (empty) selection. -/
theorem runAutoMatchmaker_odd_count_error_witness :
    ∃ r, runAutoMatchmaker [] [] [] [] = Except.ok r :=
  (runAutoMatchmaker_odd_count_error [] [] [] []).2.2 (by decide)

theorem filterMap_ids (l : List Player) (f : Player → Option PlayerForm)
    (hf : ∀ p ∈ l, ∃ pf, f p = some pf ∧ pf.id = p.id) :
    (l.filterMap f).map PlayerForm.id = l.map Player.id := by
  induction l with
  | nil => simp
  | cons p rest ih =>
    obtain ⟨pf, hpf, hid⟩ := hf p (List.mem_cons_self _ _)
    rw [List.filterMap_cons, hpf]
    simp only [List.map_cons, hid]
    rw [ih (fun q hq => hf q (List.mem_cons_of_mem _ hq))]

/-- C10: selected ids that match no roster player are dropped before the
even-count validation, so an odd id list succeeds whenever the resolvable
selected player count is even, and the returned players are exactly the
resolvable selected players. -/
theorem unresolvable_ids_dropped_before_parity (selectedPlayerIds : List String)
    (allPlayers : List Player) (allMatches : List Match) (rand : List (ℕ × ℕ))
    (_hodd : selectedPlayerIds.length % 2 = 1)
    (heven : (allPlayers.filter (fun p => selectedPlayerIds.contains p.id)).length % 2 = 0) :
    ∃ r, runAutoMatchmaker selectedPlayerIds allPlayers allMatches rand = Except.ok r ∧
      r.players.map PlayerForm.id =
        (allPlayers.filter (fun p => selectedPlayerIds.contains p.id)).map Player.id := by
  have hres : ∀ p ∈ allPlayers.filter (fun p => selectedPlayerIds.contains p.id),
      ∃ pf, mapGet (calculatePlayerForms allPlayers allMatches) p.id = some pf ∧
        pf.id = p.id := fun p hp =>
    calcForms_resolves allPlayers allMatches p (List.mem_of_mem_filter hp)
  have heq : runAutoMatchmaker selectedPlayerIds allPlayers allMatches rand =
      if (allPlayers.filter (fun p => selectedPlayerIds.contains p.id)).length % 2 ≠ 0
      then Except.error "Số lượng người chơi phải là số chẵn."
      else Except.ok (runResult selectedPlayerIds allPlayers allMatches rand) := rfl
  refine ⟨runResult selectedPlayerIds allPlayers allMatches rand, ?_, ?_⟩
  · rw [heq, if_neg (by omega)]
  · have hpl : (runResult selectedPlayerIds allPlayers allMatches rand).players =
        (allPlayers.filter (fun p => selectedPlayerIds.contains p.id)).filterMap
          (fun p => mapGet (calculatePlayerForms allPlayers allMatches) p.id) := rfl
    rw [hpl]
    exact filterMap_ids _ _ hres

/-- Witness for C10: one unresolvable id (odd id list, zero resolvable). -/
theorem unresolvable_ids_dropped_before_parity_witness :
    ∃ r, runAutoMatchmaker ["x"] [] [] [] = Except.ok r ∧
      r.players.map PlayerForm.id =
        (([] : List Player).filter (fun p => ["x"].contains p.id)).map Player.id :=
  unresolvable_ids_dropped_before_parity ["x"] [] [] [] (by decide) (by decide)

theorem initFold_untouched (l : List Player) (acc : List (String × PlayerForm))
    (k : String) (hl : ∀ q ∈ l, q.id ≠ k) :
    mapGet (l.foldl (fun st p => mapSet st p.id (initRec p)) acc) k = mapGet acc k := by
  induction l generalizing acc with
  | nil => rfl
  | cons q rest ih =>
    simp only [List.foldl_cons]
    rw [ih _ (fun r hr => hl r (List.mem_cons_of_mem _ hr))]
    exact mapGet_mapSet_ne _ _ _ _ (Ne.symm (hl q (List.mem_cons_self _ _)))

theorem initForms_mapGet_of_nodup (players : List Player) (p : Player)
    (hp : p ∈ players) (hnd : (players.map Player.id).Nodup) :
    mapGet (initForms players) p.id = some (initRec p) := by
  have main : ∀ (l : List Player) (acc : List (String × PlayerForm)),
      p ∈ l → (l.map Player.id).Nodup →
      mapGet (l.foldl (fun st q => mapSet st q.id (initRec q)) acc) p.id =
        some (initRec p) := by
    intro l
    induction l with
    | nil => intro acc h; simp at h
    | cons q rest ih =>
      intro acc hmem hnd2
      simp only [List.map_cons, List.nodup_cons] at hnd2
      rcases List.mem_cons.mp hmem with h | h
      · subst h
        simp only [List.foldl_cons]
        rw [initFold_untouched rest _ p.id
          (fun r hr hh => hnd2.1 (hh ▸ List.mem_map_of_mem Player.id hr))]
        exact mapGet_mapSet_self _ _ _
      · simp only [List.foldl_cons]
        exact ih _ h hnd2.2
  exact main players [] hp hnd

/-- C9 (amended): in Form Learner initialization the base rating equals the
raw rating whenever that raw rating is nonzero and at most 20 (negative
values included), and equals 3.0 when the raw rating is missing, zero, or
above the threshold 20; form starts at 0. -/
theorem init_base_rating_amended (players : List Player) (p : Player)
    (hp : p ∈ players) (hnd : (players.map Player.id).Nodup) :
    ∃ pf, mapGet (initForms players) p.id = some pf ∧
      pf.id = p.id ∧ pf.form = 0 ∧
      pf.baseRating =
        (if 20 < rawRating p ∨ rawRating p = 0 then (3 : ℝ) else ((rawRating p : ℚ) : ℝ)) ∧
      pf.effectiveRating = pf.baseRating := by
  refine ⟨initRec p, initForms_mapGet_of_nodup players p hp hnd, rfl, rfl, ?_, rfl⟩
  show ((baseRatingQ p : ℚ) : ℝ) = _
  unfold baseRatingQ
  by_cases h1 : 20 < rawRating p
  · rw [if_pos h1, if_pos (Or.inl h1)]
    norm_num
  · rw [if_neg h1]
    by_cases h2 : rawRating p = 0
    · rw [if_pos h2, if_pos (Or.inr h2)]
      norm_num
    · rw [if_neg h2, if_neg (by tauto)]

/-- Concrete one-player roster entry for the C9 witness. -/
def wPlayerX : Player := { id := "x", tournamentRating := some 4, initialPoints := none }

/-- Witness for C9 (amended) at a one-player roster. -/
theorem init_base_rating_amended_witness :
    ∃ pf, mapGet (initForms [wPlayerX]) wPlayerX.id = some pf ∧
      pf.id = wPlayerX.id ∧ pf.form = 0 ∧
      pf.baseRating = (if 20 < rawRating wPlayerX ∨ rawRating wPlayerX = 0 then (3 : ℝ)
        else ((rawRating wPlayerX : ℚ) : ℝ)) ∧
      pf.effectiveRating = pf.baseRating :=
  init_base_rating_amended [wPlayerX] wPlayerX (List.mem_cons_self _ _) (by decide)

/-- Counterexample for C9: a negative raw rating (JS-truthy) is used directly
as the base rating instead of collapsing to 3.0, although it is not a
positive value. -/
def pNeg : Player := { id := "N", tournamentRating := none, initialPoints := some (-1) }

/-- C9 counterexample theorem: `rawRating pNeg = -1` is not positive, yet the
initialized base rating is `-1`, not the claimed 3.0. -/
theorem negative_raw_rating_cex :
    rawRating pNeg = -1 ∧ ¬ (0 < rawRating pNeg) ∧
    ∃ pf, mapGet (initForms [pNeg]) "N" = some pf ∧
      pf.baseRating = -1 ∧ pf.baseRating ≠ 3 := by
  refine ⟨rfl, by norm_num [rawRating, pNeg], initRec pNeg, rfl, ?_, ?_⟩
  · show ((baseRatingQ pNeg : ℚ) : ℝ) = -1
    norm_num [baseRatingQ, rawRating, pNeg]
  · show ((baseRatingQ pNeg : ℚ) : ℝ) ≠ 3
    norm_num [baseRatingQ, rawRating, pNeg]

theorem bumpPair_games (st : List (String × PairStat)) (k : String) (won : Bool) :
    ∃ s, mapGet (bumpPair st k won) k = some s ∧ 1 ≤ s.games := by
  unfold bumpPair
  rcases h : mapGet st k with _ | s
  · exact ⟨_, mapGet_mapSet_self _ _ _, le_refl 1⟩
  · exact ⟨_, mapGet_mapSet_self _ _ _, by simp⟩

theorem bumpPair_preserves (st : List (String × PairStat)) (k k2 : String) (won : Bool)
    (h : ∃ s, mapGet st k = some s ∧ 1 ≤ s.games) :
    ∃ s, mapGet (bumpPair st k2 won) k = some s ∧ 1 ≤ s.games := by
  obtain ⟨s, hs, hg⟩ := h
  by_cases hk : k = k2
  · subst hk
    unfold bumpPair
    rw [hs]
    exact ⟨_, mapGet_mapSet_self _ _ _, by simp⟩
  · unfold bumpPair
    rcases h2 : mapGet st k2 with _ | s2 <;>
      exact ⟨s, by rw [mapGet_mapSet_ne _ _ _ _ hk, hs], hg⟩

/-- C4 (amended): a match referencing a player id that does not resolve in
the Form Learner state is skipped entirely by the Form Learner (the state is
unchanged — no partial update), and neither learner can throw; the Synergy
Estimator, however, consults no roster at all: it still counts any
two-member team of the match into that pair key's `(games, wins)` counter. -/
theorem learners_skip_unresolvable_amended (st : List (String × PlayerForm))
    (stS : List (String × PairStat)) (m : Match) (a b c d : String)
    (h1 : m.team1 = [a, b]) (h2 : m.team2 = [c, d])
    (hmiss : mapGet st a = none ∨ mapGet st b = none ∨
      mapGet st c = none ∨ mapGet st d = none) :
    applyFormMatch st m = st ∧
    ∃ s, mapGet (tallyMatch stS m) (getPairKey a b) = some s ∧ 1 ≤ s.games := by
  constructor
  · rcases ha : mapGet st a with _ | pa
    · simp [applyFormMatch, h1, h2, ha]
    · rcases hb : mapGet st b with _ | pb
      · simp [applyFormMatch, h1, h2, ha, hb]
      · rcases hc : mapGet st c with _ | pc
        · simp [applyFormMatch, h1, h2, ha, hb, hc]
        · rcases hd : mapGet st d with _ | pd
          · simp [applyFormMatch, h1, h2, ha, hb, hc, hd]
          · rcases hmiss with h | h | h | h <;> simp_all
  · unfold tallyMatch
    rw [h1, h2]
    exact bumpPair_preserves _ _ _ _ (bumpPair_games stS _ _)

/-- Witness for C4 (amended): empty learner states and a concrete match. -/
theorem learners_skip_unresolvable_witness :
    applyFormMatch [] wMatch = [] ∧
    ∃ s, mapGet (tallyMatch [] wMatch) (getPairKey "a" "b") = some s ∧ 1 ≤ s.games :=
  learners_skip_unresolvable_amended [] [] wMatch "a" "b" "c" "d" rfl rfl (Or.inl rfl)

/-- C4 counterexample: with an empty roster (so no id resolves), the Synergy
Estimator still records the match — the pair key of team 1 gets a
`(games, wins)` entry and a synergy-map entry, contradicting the claim that
such a match contributes no counter increment. -/
theorem synergy_counts_unrostered_cex :
    mapGet (pairStats [wMatch]) (getPairKey "a" "b") = some { games := 1, wins := 1 } ∧
    mapGet (calculateSynergyMatrix [wMatch]) (getPairKey "a" "b") =
      some (synFormula 1 1) ∧
    (∀ p : Player, p ∉ ([] : List Player)) := by
  refine ⟨by decide, rfl, by simp⟩

-- C7 --------------------------------------------------------------------

theorem bumpPair_games_pos (st : List (String × PairStat)) (k : String) (won : Bool)
    (hst : ∀ e ∈ st, 1 ≤ (e : String × PairStat).2.games) :
    ∀ e ∈ bumpPair st k won, 1 ≤ (e : String × PairStat).2.games := by
  intro e he
  unfold bumpPair at he
  rcases h : mapGet st k with _ | s
  · rw [h] at he
    rcases mem_mapSet he with h2 | h2
    · exact hst e h2
    · simp [h2]
  · rw [h] at he
    rcases mem_mapSet he with h2 | h2
    · exact hst e h2
    · simp [h2]

theorem tallyMatch_games_pos (st : List (String × PairStat)) (m : Match)
    (hst : ∀ e ∈ st, 1 ≤ (e : String × PairStat).2.games) :
    ∀ e ∈ tallyMatch st m, 1 ≤ (e : String × PairStat).2.games := by
  unfold tallyMatch
  split <;> dsimp only <;> split
  · exact bumpPair_games_pos _ _ _ (bumpPair_games_pos _ _ _ hst)
  · exact bumpPair_games_pos _ _ _ hst
  · exact bumpPair_games_pos _ _ _ hst
  · exact hst

theorem pairStats_games_pos (ms : List Match) :
    ∀ e ∈ pairStats ms, 1 ≤ (e : String × PairStat).2.games := by
  have main : ∀ (l : List Match) (acc : List (String × PairStat)),
      (∀ e ∈ acc, (e : String × PairStat).2.games ≥ 1) →
      ∀ e ∈ l.foldl tallyMatch acc, 1 ≤ (e : String × PairStat).2.games := by
    intro l
    induction l with
    | nil => intro acc hacc; simpa using hacc
    | cons m rest ih =>
      intro acc hacc
      simp only [List.foldl_cons]
      exact ih _ (tallyMatch_games_pos acc m hacc)
  exact main ms [] (by intro e he; simp at he)

/-- C7: the Synergy Estimator maps every pair key with at least one recorded
game to `ln(p / (1-p)) * (games / (games + 6))` where `p` is
`(wins+2)/(games+4)` clamped to `[0.01, 0.99]` (the value of `synFormula`);
a key with no recorded games has no entry, and the Pairing Cost Function's
lookup of an absent key yields synergy 0. -/
theorem synergy_map_formula (ms : List Match) (k : String) :
    (∀ v, mapGet (calculateSynergyMatrix ms) k = some v →
      ∃ g w, mapGet (pairStats ms) k = some { games := g, wins := w } ∧ 1 ≤ g ∧
        v = synFormula g w) ∧
    (mapGet (calculateSynergyMatrix ms) k = none →
      synOf (calculateSynergyMatrix ms) k = 0) := by
  constructor
  · intro v hv
    have hmv : mapGet (calculateSynergyMatrix ms) k =
        (mapGet (pairStats ms) k).map synergyOfStat :=
      mapGet_map_value (pairStats ms) synergyOfStat k
    rw [hmv] at hv
    rcases hps : mapGet (pairStats ms) k with _ | s
    · rw [hps] at hv
      exact absurd hv (by simp)
    · rw [hps] at hv
      refine ⟨s.games, s.wins, rfl, ?_, ?_⟩
      · exact pairStats_games_pos ms (k, s) (mapGet_mem hps)
      · have hv2 : synergyOfStat s = v := by simpa using hv
        rw [← hv2]
        rfl
  · intro h
    unfold synOf
    rw [h]
    rfl

/-- Witness for C7: one recorded match gives the team-1 key a (1,1) counter
with the formula value, and an unseen key contributes synergy 0. -/
theorem synergy_map_formula_witness :
    (∃ g w, mapGet (pairStats [wMatch]) (getPairKey "a" "b") =
        some { games := g, wins := w } ∧ 1 ≤ g ∧ synFormula 1 1 = synFormula g w) ∧
    synOf (calculateSynergyMatrix [wMatch]) "zz" = 0 :=
  ⟨(synergy_map_formula [wMatch] (getPairKey "a" "b")).1 (synFormula 1 1) rfl,
   (synergy_map_formula [wMatch] "zz").2 rfl⟩

-- C5 --------------------------------------------------------------------

theorem totalCost_eq_sum (l : List GeneratedPair) :
    totalCost l = (l.map GeneratedPair.cost).sum := by
  have main : ∀ (l : List GeneratedPair) (a : ℝ),
      l.foldl (fun s p => s + p.cost) a = a + (l.map GeneratedPair.cost).sum := by
    intro l
    induction l with
    | nil => intro a; simp
    | cons x xs ih => intro a; simp [ih]; ring
  simpa using main l 0

theorem totalCost_set (l : List GeneratedPair) (i : ℕ) (a : GeneratedPair)
    (h : i < l.length) :
    totalCost (l.set i a) = totalCost l - (l.getD i defaultPair).cost + a.cost := by
  induction l generalizing i with
  | nil => simp at h
  | cons x xs ih =>
    cases i with
    | zero =>
      simp only [List.set_cons_zero, List.getD_cons_zero]
      rw [totalCost_eq_sum, totalCost_eq_sum]
      simp
      ring
    | succ n =>
      simp only [List.set_cons_succ, List.getD_cons_succ]
      rw [totalCost_eq_sum, totalCost_eq_sum, List.map_cons, List.map_cons,
        List.sum_cons, List.sum_cons, ← totalCost_eq_sum, ← totalCost_eq_sum,
        ih n (by simpa using h)]
      ring

theorem getD_set_ne (l : List GeneratedPair) (i j : ℕ) (a : GeneratedPair)
    (hne : i ≠ j) : (l.set i a).getD j defaultPair = l.getD j defaultPair := by
  by_cases hj : j < l.length
  · rw [List.getD_eq_getElem _ _ (by simpa using hj), List.getD_eq_getElem _ _ hj]
    exact List.getElem_set_ne hne _
  · have h1 : l.length ≤ j := Nat.le_of_not_lt hj
    have h2 : (l.set i a).length ≤ j := by simpa using h1
    rw [List.getD_eq_default _ _ h1, List.getD_eq_default _ _ h2]

theorem swapStep_inv (syn : List (String × ℝ)) (recent : List String)
    (s : List GeneratedPair × ℝ) (ij : ℕ × ℕ) (h : s.2 = totalCost s.1) :
    (swapStep syn recent s ij).2 = totalCost (swapStep syn recent s ij).1 ∧
    (swapStep syn recent s ij).2 ≤ s.2 := by
  unfold swapStep
  by_cases hlen : s.1.length < 2
  · rw [if_pos hlen]
    exact ⟨h, le_refl _⟩
  · rw [if_neg hlen]
    have hn : 0 < s.1.length := by omega
    have hidx1 : ij.1 % s.1.length < s.1.length := Nat.mod_lt _ hn
    have hj : ij.2 % s.1.length < s.1.length := Nat.mod_lt _ hn
    have hidx2 : (if ij.2 % s.1.length = ij.1 % s.1.length
        then (ij.2 % s.1.length + 1) % s.1.length
        else ij.2 % s.1.length) < s.1.length := by
      split
      · exact Nat.mod_lt _ hn
      · exact hj
    have hne : (if ij.2 % s.1.length = ij.1 % s.1.length
        then (ij.2 % s.1.length + 1) % s.1.length
        else ij.2 % s.1.length) ≠ ij.1 % s.1.length := by
      by_cases heq : ij.2 % s.1.length = ij.1 % s.1.length
      · rw [if_pos heq, ← heq]
        by_cases hlt : ij.2 % s.1.length + 1 < s.1.length
        · rw [Nat.mod_eq_of_lt hlt]
          omega
        · have hself : ij.2 % s.1.length + 1 = s.1.length := by omega
          rw [hself, Nat.mod_self]
          omega
      · rw [if_neg heq]
        exact heq
    dsimp only
    generalize hI2 : (if ij.2 % s.1.length = ij.1 % s.1.length
      then (ij.2 % s.1.length + 1) % s.1.length
      else ij.2 % s.1.length) = idx2 at hidx2 hne ⊢
    generalize hI1 : ij.1 % s.1.length = idx1 at hidx1 hne ⊢
    split
    next hc =>
      constructor
      · rw [totalCost_set _ _ _ (by simpa using hidx2),
          getD_set_ne _ _ _ _ (Ne.symm hne), totalCost_set _ _ _ hidx1]
        dsimp only
        rw [h]
        ring
      · exact le_of_lt hc
    next =>
      exact ⟨h, le_refl _⟩

theorem foldl_swapStep_inv (syn : List (String × ℝ)) (recent : List String)
    (l : List (ℕ × ℕ)) (s : List GeneratedPair × ℝ) (h : s.2 = totalCost s.1) :
    (l.foldl (swapStep syn recent) s).2 =
      totalCost (l.foldl (swapStep syn recent) s).1 ∧
    (l.foldl (swapStep syn recent) s).2 ≤ s.2 := by
  induction l generalizing s with
  | nil => exact ⟨h, le_refl _⟩
  | cons ij rest ih =>
    simp only [List.foldl_cons]
    obtain ⟨h1, h2⟩ := swapStep_inv syn recent s ij h
    obtain ⟨h3, h4⟩ := ih (swapStep syn recent s ij) h1
    exact ⟨h3, le_trans h4 h2⟩

/-- C5: for every random index sequence, each local-search iteration applies
the cross swap only on strict total-cost improvement, so the total recorded
pairing cost of the returned pairs never exceeds the total cost after greedy
seeding alone. -/
theorem local_search_never_regresses (pool : List PlayerForm)
    (synergyMatrix : List (String × ℝ)) (recentPairs : List String)
    (rand : List (ℕ × ℕ)) :
    totalCost (generateOptimalPairs pool synergyMatrix recentPairs rand) ≤
      totalCost (greedyPairs pool synergyMatrix recentPairs) := by
  unfold generateOptimalPairs
  obtain ⟨h1, h2⟩ := foldl_swapStep_inv synergyMatrix recentPairs (rand.take 200)
    (greedyPairs pool synergyMatrix recentPairs,
      totalCost (greedyPairs pool synergyMatrix recentPairs)) rfl
  dsimp only
  dsimp only at h1 h2
  rw [← h1]
  exact h2

-- C8 --------------------------------------------------------------------

/-- The handicap property claimed of every emitted proposal: the base points
are the step function of the strength gap, at most one bonus point is added,
points stay in `{0, …, 5}`, and a handicap record exists iff points are
positive. -/
def HandicapOK (gm : GeneratedMatch) : Prop :=
  match gm.handicap with
  | none => basePoints |gm.team1.strength - gm.team2.strength| = 0
  | some h =>
      (h.points = basePoints |gm.team1.strength - gm.team2.strength| ∨
        h.points = basePoints |gm.team1.strength - gm.team2.strength| + 1) ∧
      1 ≤ basePoints |gm.team1.strength - gm.team2.strength| ∧ h.points ≤ 5

theorem basePoints_le (d : ℝ) : basePoints d ≤ 4 := by
  unfold basePoints
  split_ifs <;> omega

theorem handicapOK_mkProposal (X Y : GeneratedPair) (mc : ℝ) (an : AnalysisInfo)
    (wt : ℕ) (r : String) (C : Prop) [Decidable C] :
    HandicapOK (mkProposal X Y mc an wt r C) := by
  have hle := basePoints_le |X.strength - Y.strength|
  unfold mkProposal HandicapOK
  dsimp only
  by_cases hb : 0 < basePoints |X.strength - Y.strength|
  · by_cases hC : C
    · rw [if_pos (show 0 < basePoints |X.strength - Y.strength| ∧ C from ⟨hb, hC⟩),
        if_pos (show 0 < basePoints |X.strength - Y.strength| + 1 by omega)]
      refine ⟨Or.inr rfl, hb, ?_⟩
      show basePoints |X.strength - Y.strength| + 1 ≤ 5
      omega
    · rw [if_neg (show ¬ (0 < basePoints |X.strength - Y.strength| ∧ C) from
          fun hh => hC hh.2), if_pos hb]
      refine ⟨Or.inl rfl, hb, ?_⟩
      show basePoints |X.strength - Y.strength| ≤ 5
      omega
  · rw [if_neg (show ¬ (0 < basePoints |X.strength - Y.strength| ∧ C) from
        fun hh => hb hh.1), if_neg hb]
    show basePoints |X.strength - Y.strength| = 0
    omega

theorem handicapOK_schedProposal (t1 t2 : GeneratedPair) (c : ℝ) :
    HandicapOK (schedProposal t1 t2 c) := by
  unfold schedProposal
  exact handicapOK_mkProposal _ _ _ _ _ _ _

theorem handicapOK_rankOne (fixedTeam : GeneratedPair) (syn : List (String × ℝ))
    (recentMatches : List String) (candidate : GeneratedPair) :
    HandicapOK (rankOne fixedTeam syn recentMatches candidate) := by
  unfold rankOne
  exact handicapOK_mkProposal _ _ _ _ _ _ _

theorem genGo_forall (recent : List String) (pool : List GeneratedPair) :
    ∀ gm ∈ genGo recent pool, HandicapOK gm := by
  refine genGo.induct recent (fun l => ∀ gm ∈ genGo recent l, HandicapOK gm)
    ?_ ?_ ?_ ?_ pool
  · intro gm hgm
    simp [genGo] at hgm
  · intro t gm hgm
    simp [genGo] at hgm
  · intro t1 rest hne b hpick ih gm hgm
    rcases rest with _ | ⟨r2, rest2⟩
    · exact absurd rfl hne
    · have hg : genGo recent (t1 :: r2 :: rest2) =
          (match pickOpponent t1 recent (r2 :: rest2) with
          | some b2 => schedProposal t1 b2.2.1 b2.2.2 ::
              genGo recent ((r2 :: rest2).eraseIdx b2.1)
          | none => genGo recent (r2 :: rest2)) := by
        rw [genGo]; simp
      rw [hg] at hgm
      simp only [hpick] at hgm
      rcases List.mem_cons.mp hgm with h | h
      · subst h
        exact handicapOK_schedProposal _ _ _
      · exact ih gm h
  · intro t1 rest hne hpick ih gm hgm
    rcases rest with _ | ⟨r2, rest2⟩
    · exact absurd rfl hne
    · have hg : genGo recent (t1 :: r2 :: rest2) =
          (match pickOpponent t1 recent (r2 :: rest2) with
          | some b2 => schedProposal t1 b2.2.1 b2.2.2 ::
              genGo recent ((r2 :: rest2).eraseIdx b2.1)
          | none => genGo recent (r2 :: rest2)) := by
        rw [genGo]; simp
      rw [hg] at hgm
      simp only [hpick] at hgm
      exact ih gm hgm

theorem generateMatchups_forall (teams : List GeneratedPair) (recentMatches : List String) :
    ∀ gm ∈ generateMatchups teams recentMatches, HandicapOK gm := by
  intro gm hgm
  unfold generateMatchups at hgm
  exact genGo_forall _ _ gm hgm

theorem findTop_forall (fixedTeamIds : String × String) (poolIds : List String)
    (allPlayers : List Player) (allMatches : List Match) :
    ∀ gm ∈ findTopMatchupsForTeam fixedTeamIds poolIds allPlayers allMatches,
      HandicapOK gm := by
  intro gm hgm
  unfold findTopMatchupsForTeam at hgm
  dsimp only at hgm
  rcases h1 : mapGet (calculatePlayerForms allPlayers allMatches) fixedTeamIds.1 with _ | p1
  · rw [h1] at hgm
    simp at hgm
  · rw [h1] at hgm
    rcases h2 : mapGet (calculatePlayerForms allPlayers allMatches) fixedTeamIds.2 with _ | p2
    · rw [h2] at hgm
      simp at hgm
    · rw [h2] at hgm
      dsimp only at hgm
      have hmem := mem_sortBy.mp (List.mem_of_mem_take hgm)
      obtain ⟨cand, _, hcand⟩ := List.mem_map.mp hmem
      rw [← hcand]
      exact handicapOK_rankOne _ _ _ _

theorem predict_handicapOK (team1Ids team2Ids : List String)
    (allPlayers : List Player) (allMatches : List Match) :
    (predictMatchOutcome team1Ids team2Ids allPlayers allMatches).elim True HandicapOK := by
  unfold predictMatchOutcome
  dsimp only
  split
  · trivial
  · split
    · trivial
    · split
      · trivial
      · exact handicapOK_mkProposal _ _ _ _ _ _ _

/-- C8: in every `MatchProposal` produced by the Match Scheduler,
`findTopMatchupsForTeam`, or `predictMatchOutcome`, the base handicap points
follow the step function of `diff = |strength1 - strength2|` (0 / 1 / 2 / 3
for the closed bands up to 1.2, exactly 4 for every larger diff), at most one
support bonus point is added, total points lie in `{0, …, 5}`, and a handicap
record is present iff the points are positive. -/
theorem handicap_points_step_function (teams : List GeneratedPair)
    (recentM : List String) (fixedIds : String × String) (poolIds : List String)
    (players1 : List Player) (ms1 : List Match) (t1Ids t2Ids : List String)
    (players2 : List Player) (ms2 : List Match) :
    List.Forall HandicapOK (generateMatchups teams recentM) ∧
    List.Forall HandicapOK (findTopMatchupsForTeam fixedIds poolIds players1 ms1) ∧
    (predictMatchOutcome t1Ids t2Ids players2 ms2).elim True HandicapOK :=
  ⟨List.forall_iff_forall_mem.mpr (generateMatchups_forall teams recentM),
   List.forall_iff_forall_mem.mpr (findTop_forall fixedIds poolIds players1 ms1),
   predict_handicapOK t1Ids t2Ids players2 ms2⟩

-- C6 --------------------------------------------------------------------

/-- The pair invariant claimed of every produced `GeneratedPair`: structure
is nonnegative and strength is the literal sum of the two slot players'
effective ratings. -/
def PairOK (p : GeneratedPair) : Prop :=
  0 ≤ p.struct ∧ p.strength = p.player1.effectiveRating + p.player2.effectiveRating

theorem greedyGo_pairOK (synergyMatrix : List (String × ℝ)) (recentPairs : List String) :
    ∀ (l : List PlayerForm) (used : List String),
      ∀ p ∈ greedyGo synergyMatrix recentPairs l used, PairOK p := by
  intro l
  induction l with
  | nil =>
    intro used p hp
    simp [greedyGo] at hp
  | cons p1 rest ih =>
    intro used p hp
    rw [greedyGo] at hp
    split at hp
    · exact ih used p hp
    · split at hp
      · exact ih used p hp
      · rcases List.mem_cons.mp hp with h | h
        · subst h
          exact ⟨abs_nonneg _, rfl⟩
        · exact ih _ p h

theorem greedyPairs_pairOK (pool : List PlayerForm) (synergyMatrix : List (String × ℝ))
    (recentPairs : List String) :
    ∀ p ∈ greedyPairs pool synergyMatrix recentPairs, PairOK p := by
  intro p hp
  unfold greedyPairs at hp
  exact greedyGo_pairOK _ _ _ _ p hp

theorem swapStep_pairOK (synergyMatrix : List (String × ℝ)) (recentPairs : List String)
    (s : List GeneratedPair × ℝ) (ij : ℕ × ℕ) (h : ∀ p ∈ s.1, PairOK p) :
    ∀ p ∈ (swapStep synergyMatrix recentPairs s ij).1, PairOK p := by
  unfold swapStep
  by_cases hlen : s.1.length < 2
  · rw [if_pos hlen]
    exact h
  · rw [if_neg hlen]
    dsimp only
    generalize (if ij.2 % s.1.length = ij.1 % s.1.length
      then (ij.2 % s.1.length + 1) % s.1.length
      else ij.2 % s.1.length) = idx2
    generalize ij.1 % s.1.length = idx1
    split
    next =>
      intro p hp
      rcases List.mem_or_eq_of_mem_set hp with hp2 | hp2
      · rcases List.mem_or_eq_of_mem_set hp2 with hp3 | hp3
        · exact h p hp3
        · subst hp3
          exact ⟨abs_nonneg _, rfl⟩
      · subst hp2
        exact ⟨abs_nonneg _, rfl⟩
    next =>
      exact h

theorem generateOptimalPairs_pairOK (pool : List PlayerForm)
    (synergyMatrix : List (String × ℝ)) (recentPairs : List String)
    (rand : List (ℕ × ℕ)) :
    ∀ p ∈ generateOptimalPairs pool synergyMatrix recentPairs rand, PairOK p := by
  have main : ∀ (l : List (ℕ × ℕ)) (s : List GeneratedPair × ℝ), (∀ p ∈ s.1, PairOK p) →
      ∀ p ∈ (l.foldl (swapStep synergyMatrix recentPairs) s).1, PairOK p := by
    intro l
    induction l with
    | nil => intro s hs; exact hs
    | cons ij rest ih =>
      intro s hs
      simp only [List.foldl_cons]
      exact ih _ (swapStep_pairOK _ _ _ _ hs)
  intro p hp
  unfold generateOptimalPairs at hp
  dsimp only at hp
  exact main _ _ (greedyPairs_pairOK pool synergyMatrix recentPairs) p hp

theorem findTop_pairsOK (fixedTeamIds : String × String) (poolIds : List String)
    (allPlayers : List Player) (allMatches : List Match) :
    ∀ gm ∈ findTopMatchupsForTeam fixedTeamIds poolIds allPlayers allMatches,
      PairOK gm.team1 ∧ PairOK gm.team2 := by
  intro gm hgm
  unfold findTopMatchupsForTeam at hgm
  dsimp only at hgm
  rcases h1 : mapGet (calculatePlayerForms allPlayers allMatches) fixedTeamIds.1 with _ | p1
  · rw [h1] at hgm
    simp at hgm
  · rw [h1] at hgm
    rcases h2 : mapGet (calculatePlayerForms allPlayers allMatches) fixedTeamIds.2 with _ | p2
    · rw [h2] at hgm
      simp at hgm
    · rw [h2] at hgm
      dsimp only at hgm
      have hmem := mem_sortBy.mp (List.mem_of_mem_take hgm)
      obtain ⟨cand, hcandmem, rfl⟩ := List.mem_map.mp hmem
      obtain ⟨o, _, rfl⟩ := List.mem_map.mp hcandmem
      exact ⟨⟨abs_nonneg _, rfl⟩, ⟨abs_nonneg _, rfl⟩⟩

/-- C6 (amended): every pair produced by greedy seeding, by a local-search
swap, and by `findTopMatchupsForTeam` (fixed team and candidates alike) has
structure ≥ 0 and strength equal to the literal sum of the effective ratings
of the two players stored in its slots; in `predictMatchOutcome` this also
holds for any team whose second member resolves, while a team whose second
member is absent (a singles team, or an unresolvable second id) stores its
first player in both slots, gets structure 0 and strength equal to that
single player's effective rating alone — not the sum of the two slots. -/
theorem pair_strength_structure_amended (pool : List PlayerForm)
    (synergyMatrix : List (String × ℝ)) (recentPairs : List String)
    (rand : List (ℕ × ℕ)) (fixedIds : String × String) (poolIds : List String)
    (players1 : List Player) (ms1 : List Match) (t1Ids t2Ids : List String)
    (players2 : List Player) (ms2 : List Match) :
    List.Forall PairOK (greedyPairs pool synergyMatrix recentPairs) ∧
    List.Forall PairOK (generateOptimalPairs pool synergyMatrix recentPairs rand) ∧
    List.Forall (fun gm => PairOK gm.team1 ∧ PairOK gm.team2)
      (findTopMatchupsForTeam fixedIds poolIds players1 ms1) ∧
    (predictMatchOutcome t1Ids t2Ids players2 ms2).elim True (fun gm =>
      0 ≤ gm.team1.struct ∧ 0 ≤ gm.team2.struct ∧
      (match resolve2 (calculatePlayerForms players2 ms2) t1Ids with
        | some _ => PairOK gm.team1
        | none => gm.team1.strength = gm.team1.player1.effectiveRating ∧
            gm.team1.player2 = gm.team1.player1 ∧ gm.team1.struct = 0) ∧
      (match resolve2 (calculatePlayerForms players2 ms2) t2Ids with
        | some _ => PairOK gm.team2
        | none => gm.team2.strength = gm.team2.player1.effectiveRating ∧
            gm.team2.player2 = gm.team2.player1 ∧ gm.team2.struct = 0)) := by
  refine ⟨List.forall_iff_forall_mem.mpr (greedyPairs_pairOK pool synergyMatrix recentPairs),
    List.forall_iff_forall_mem.mpr (generateOptimalPairs_pairOK pool synergyMatrix
      recentPairs rand),
    List.forall_iff_forall_mem.mpr (findTop_pairsOK fixedIds poolIds players1 ms1), ?_⟩
  unfold predictMatchOutcome
  dsimp only
  split
  · trivial
  · split
    · trivial
    · split
      · trivial
      · rcases ht1 : resolve2 (calculatePlayerForms players2 ms2) t1Ids with _ | q1 <;>
          rcases ht2 : resolve2 (calculatePlayerForms players2 ms2) t2Ids with _ | q2
        · exact ⟨le_refl 0, le_refl 0, ⟨add_zero _, rfl, rfl⟩, ⟨add_zero _, rfl, rfl⟩⟩
        · exact ⟨le_refl 0, abs_nonneg _, ⟨add_zero _, rfl, rfl⟩, ⟨abs_nonneg _, rfl⟩⟩
        · exact ⟨abs_nonneg _, le_refl 0, ⟨abs_nonneg _, rfl⟩, ⟨add_zero _, rfl, rfl⟩⟩
        · exact ⟨abs_nonneg _, abs_nonneg _, ⟨abs_nonneg _, rfl⟩, ⟨abs_nonneg _, rfl⟩⟩

-- Concrete predictor evaluations (C1, C6) --------------------------------

theorem mkProposal_team1 (X Y : GeneratedPair) (mc : ℝ) (an : AnalysisInfo)
    (wt : ℕ) (r : String) (C : Prop) [Decidable C] :
    (mkProposal X Y mc an wt r C).team1 = X := rfl

theorem mkProposal_team2 (X Y : GeneratedPair) (mc : ℝ) (an : AnalysisInfo)
    (wt : ℕ) (r : String) (C : Prop) [Decidable C] :
    (mkProposal X Y mc an wt r C).team2 = Y := rfl

/-- Concrete roster: a strong player A (5.0), a middling B (3.0), a support
player C (1.0). -/
def pA : Player := { id := "A", tournamentRating := some 5, initialPoints := none }

/-- Player B, rating 3.0. -/
def pB : Player := { id := "B", tournamentRating := some 3, initialPoints := none }

/-- Player C, rating 1.0 (below the 2.6 support cutoff). -/
def pC : Player := { id := "C", tournamentRating := some 1, initialPoints := none }

/-- The three-player roster. -/
def roster : List Player := [pA, pB, pC]

/-- Learned form record of A with empty match history. -/
noncomputable def fA : PlayerForm := finalizeForm (initRec pA)

/-- Learned form record of B with empty match history. -/
noncomputable def fB : PlayerForm := finalizeForm (initRec pB)

/-- Learned form record of C with empty match history. -/
noncomputable def fC : PlayerForm := finalizeForm (initRec pC)

theorem eff_of_baseInt (p : Player) (n : ℤ) (h : baseRatingQ p = (n : ℚ)) :
    (finalizeForm (initRec p)).effectiveRating = (n : ℝ) := by
  show round2 (((baseRatingQ p : ℚ) : ℝ) + 0) = (n : ℝ)
  rw [h]
  have h2 : ((((n : ℤ) : ℚ)) : ℝ) + 0 = ((n : ℤ) : ℝ) := by push_cast; ring
  rw [h2, round2_intCast]

theorem effA : fA.effectiveRating = 5 := by
  have h := eff_of_baseInt pA 5 (by norm_num [baseRatingQ, rawRating, pA])
  simpa using h

theorem effB : fB.effectiveRating = 3 := by
  have h := eff_of_baseInt pB 3 (by norm_num [baseRatingQ, rawRating, pB])
  simpa using h

theorem effC : fC.effectiveRating = 1 := by
  have h := eff_of_baseInt pC 1 (by norm_num [baseRatingQ, rawRating, pC])
  simpa using h

/-- C6 counterexample: for the singles team 1 built by `predictMatchOutcome`,
the stored strength is the single player's effective rating (5.0), not the
sum of the effective ratings of the two (duplicated) slot players (10.0). -/
theorem predict_singles_strength_cex :
    ∃ gm, predictMatchOutcome ["A"] ["B"] roster [] = some gm ∧
      gm.team1.strength ≠
        gm.team1.player1.effectiveRating + gm.team1.player2.effectiveRating := by
  have hA : mapGet (calculatePlayerForms roster []) ((["A"] : List String).getD 0 "") =
      some fA := rfl
  have hB : mapGet (calculatePlayerForms roster []) ((["B"] : List String).getD 0 "") =
      some fB := rfl
  unfold predictMatchOutcome
  rw [if_neg (by norm_num)]
  dsimp only
  rw [hA]
  dsimp only
  rw [show resolve2 (calculatePlayerForms roster []) ["A"] = none from by
    unfold resolve2; rw [if_neg (by norm_num)]]
  rw [hB]
  dsimp only
  rw [show resolve2 (calculatePlayerForms roster []) ["B"] = none from by
    unfold resolve2; rw [if_neg (by norm_num)]]
  refine ⟨_, rfl, ?_⟩
  rw [mkProposal_team1]
  show fA.effectiveRating + 0 ≠ fA.effectiveRating + fA.effectiveRating
  rw [effA]
  norm_num

/-- C1: the support-bonus rule is NOT applied identically in the predictor.
For singles team 1 = [A] (5.0) against doubles team 2 = [B, C] (3.0 + 1.0),
the weaker team 2 contains support player C (1.0 < 2.6), so the shared rule
of `generateMatchups`/`findTopMatchupsForTeam` (`supportAdjust`) yields
3 + 1 = 4 points — but `predictMatchOutcome` awards only 3, because its
`hasWeakLink` gates the second-slot check on `team1Ids.length > 1` even when
the weak pair is team 2, contradicting the code's own comment
("If double, check both"). -/
theorem predict_support_divergence :
    ∃ gm, predictMatchOutcome ["A"] ["B", "C"] roster [] = some gm ∧
      gm.handicap.map (fun h => (h.team, h.points)) = some (2, 3) ∧
      supportAdjust (basePoints |gm.team1.strength - gm.team2.strength|) gm.team2 = 4 := by
  have hA : mapGet (calculatePlayerForms roster []) ((["A"] : List String).getD 0 "") =
      some fA := rfl
  have hB : mapGet (calculatePlayerForms roster [])
      ((["B", "C"] : List String).getD 0 "") = some fB := rfl
  have hC2 : resolve2 (calculatePlayerForms roster []) ["B", "C"] = some fC := by
    unfold resolve2
    rw [if_pos (by norm_num)]
    rfl
  unfold predictMatchOutcome
  rw [if_neg (by norm_num)]
  dsimp only
  rw [hA]
  dsimp only
  rw [show resolve2 (calculatePlayerForms roster []) ["A"] = none from by
    unfold resolve2; rw [if_neg (by norm_num)]]
  rw [hB]
  dsimp only
  rw [hC2]
  simp only [Option.elim_none, Option.elim_some, Option.getD_none, Option.getD_some,
    effA, effB, effC]
  rw [if_neg (show ¬ ((5 : ℝ) + 0 < 3 + 1) by norm_num)]
  rw [if_neg (show ¬ ((2 : ℕ) = 1) by norm_num)]
  refine ⟨_, rfl, ?_, ?_⟩
  · unfold mkProposal
    dsimp only
    rw [show basePoints |(5 : ℝ) + 0 - (3 + 1)| = 3 from by unfold basePoints; norm_num]
    norm_num [effB, effC, SUPPORT_CUTOFF]
  · rw [mkProposal_team1, mkProposal_team2]
    dsimp only
    rw [show basePoints |(5 : ℝ) + 0 - (3 + 1)| = 3 from by unfold basePoints; norm_num]
    norm_num [supportAdjust, effB, effC, SUPPORT_CUTOFF]

end PicklePro

